import Mathlib

/-!
Verification of the invoice generator (`invoice_generator.py`).

The Python program is shallowly embedded: pandas DataFrames become Lean
lists of rows, Python decimal amounts (read from spreadsheets and rounded
with `round(x, d)`) are modelled as exact decimal rationals `ℚ`, strings
become Lean `String`/`List Char`, and the file-system side effects of the
batch runner are modelled by explicit state passing.  Each definition is a
direct translation of the correspondingly named Python function.
-/

/-! ### Paginator: `InvoiceProcessor.split_dataframe`

The Python loop
```
dataframes = []; current_row = 0
while current_row < len(df):
    page_df = df.iloc[current_row:current_row + rows_per_page]
    dataframes.append(page_df); current_row += rows_per_page
```
is embedded in two forms: `splitLoop` is the raw loop with explicit fuel,
returning `none` when the fuel runs out before the loop condition fails
(so non-termination of the `while` loop is `none` for every fuel), and
`splitGo`/`split_dataframe` is the terminating function obtained with
fuel `df.length`, which suffices whenever `rows_per_page ≥ 1`.
`df.iloc[c:c+p]` with `current_row = c` is `(df.drop c).take p`; advancing
the loop replaces `df.drop c` by `(df.drop c).drop p`.
-/

def splitLoop {α : Type} : Nat → List α → Nat → Option (List (List α))
  | _, [], _ => some []
  | 0, _ :: _, _ => none
  | fuel + 1, a :: t, p =>
      (splitLoop fuel ((a :: t).drop p) p).map (fun r => (a :: t).take p :: r)

def splitGo {α : Type} : Nat → List α → Nat → List (List α)
  | _, [], _ => []
  | 0, _ :: _, _ => []
  | fuel + 1, a :: t, p => (a :: t).take p :: splitGo fuel ((a :: t).drop p) p

/-- The default value of the `rows_per_page` parameter in the source. -/
def default_rows_per_page : Nat := 58

def split_dataframe {α : Type} (df : List α) (rows_per_page : Nat) : List (List α) :=
  splitGo df.length df rows_per_page

theorem splitGo_nil {α : Type} (fuel p : Nat) : splitGo (α := α) fuel [] p = [] := by
  cases fuel <;> rfl

theorem drop_length_le_of_pos {α : Type} (a : α) (t : List α) (p : Nat) (hp : 1 ≤ p)
    (fuel : Nat) (h : (a :: t).length ≤ fuel + 1) : ((a :: t).drop p).length ≤ fuel := by
  rw [List.length_drop]
  simp only [List.length_cons] at h ⊢
  omega

theorem splitLoop_some {α : Type} (p : Nat) (hp : 1 ≤ p) :
    ∀ fuel (l : List α), l.length ≤ fuel → splitLoop fuel l p = some (splitGo fuel l p) := by
  intro fuel
  induction fuel with
  | zero =>
      intro l hl
      have : l = [] := List.eq_nil_of_length_eq_zero (Nat.le_zero.mp hl)
      subst this; rfl
  | succ fuel ih =>
      intro l hl
      cases l with
      | nil => rfl
      | cons a t =>
          have hrec := ih ((a :: t).drop p) (drop_length_le_of_pos a t p hp fuel hl)
          simp [splitLoop, splitGo, hrec]

theorem splitGo_fuel {α : Type} (p : Nat) (hp : 1 ≤ p) :
    ∀ f1 f2 (l : List α), l.length ≤ f1 → l.length ≤ f2 → splitGo f1 l p = splitGo f2 l p := by
  intro f1
  induction f1 with
  | zero =>
      intro f2 l hl _
      have : l = [] := List.eq_nil_of_length_eq_zero (Nat.le_zero.mp hl)
      subst this; rw [splitGo_nil, splitGo_nil]
  | succ f1 ih =>
      intro f2 l hl1 hl2
      cases l with
      | nil => rw [splitGo_nil, splitGo_nil]
      | cons a t =>
          cases f2 with
          | zero => simp at hl2
          | succ f2 =>
              have h1 := drop_length_le_of_pos a t p hp f1 hl1
              have h2 := drop_length_le_of_pos a t p hp f2 hl2
              simp only [splitGo]
              rw [ih f2 ((a :: t).drop p) h1 h2]

theorem splitLoop_zero_none {α : Type} :
    ∀ fuel (l : List α), l ≠ [] → splitLoop fuel l 0 = none := by
  intro fuel
  induction fuel with
  | zero =>
      intro l hl
      cases l with
      | nil => exact absurd rfl hl
      | cons a t => rfl
  | succ fuel ih =>
      intro l hl
      cases l with
      | nil => exact absurd rfl hl
      | cons a t =>
          simp only [splitLoop, List.drop_zero]
          rw [ih (a :: t) (by simp)]
          rfl

theorem splitGo_flatten {α : Type} (p : Nat) (hp : 1 ≤ p) :
    ∀ fuel (l : List α), l.length ≤ fuel → (splitGo fuel l p).flatten = l := by
  intro fuel
  induction fuel with
  | zero =>
      intro l hl
      have : l = [] := List.eq_nil_of_length_eq_zero (Nat.le_zero.mp hl)
      subst this; rfl
  | succ fuel ih =>
      intro l hl
      cases l with
      | nil => rfl
      | cons a t =>
          simp only [splitGo, List.flatten_cons]
          rw [ih ((a :: t).drop p) (drop_length_le_of_pos a t p hp fuel hl)]
          exact List.take_append_drop p (a :: t)

theorem ceil_div_step (n p : Nat) (hn : 1 ≤ n) (hp : 1 ≤ p) :
    (n + p - 1) / p = (n - p + p - 1) / p + 1 := by
  rcases le_or_lt n p with h | h
  · have h0 : n - p = 0 := by omega
    have h1 : n + p - 1 = (n - 1) + p := by omega
    rw [h0, h1, Nat.add_div_right _ hp, Nat.div_eq_of_lt (by omega)]
    have h2 : (0 + p - 1) / p = 0 := Nat.div_eq_of_lt (by omega)
    rw [h2]
  · have h1 : n + p - 1 = (n - p + p - 1) + p := by omega
    rw [h1, Nat.add_div_right _ hp]

theorem splitGo_length {α : Type} (p : Nat) (hp : 1 ≤ p) :
    ∀ fuel (l : List α), l.length ≤ fuel →
      (splitGo fuel l p).length = (l.length + p - 1) / p := by
  intro fuel
  induction fuel with
  | zero =>
      intro l hl
      have : l = [] := List.eq_nil_of_length_eq_zero (Nat.le_zero.mp hl)
      subst this
      rw [splitGo_nil]
      simp only [List.length_nil, Nat.zero_add]
      exact (Nat.div_eq_of_lt (by omega)).symm
  | succ fuel ih =>
      intro l hl
      cases l with
      | nil =>
          rw [splitGo_nil]
          simp only [List.length_nil, Nat.zero_add]
          exact (Nat.div_eq_of_lt (by omega)).symm
      | cons a t =>
          simp only [splitGo, List.length_cons]
          rw [ih ((a :: t).drop p) (drop_length_le_of_pos a t p hp fuel hl)]
          rw [List.length_drop]
          simp only [List.length_cons]
          have hstep := ceil_div_step (t.length + 1) p (by omega) hp
          omega

theorem splitGo_group_le {α : Type} (p : Nat) (hp : 1 ≤ p) :
    ∀ fuel (l : List α), l.length ≤ fuel →
      ∀ g ∈ splitGo fuel l p, g.length ≤ p := by
  intro fuel
  induction fuel with
  | zero =>
      intro l hl
      have : l = [] := List.eq_nil_of_length_eq_zero (Nat.le_zero.mp hl)
      subst this; intro g hg; simp [splitGo] at hg
  | succ fuel ih =>
      intro l hl
      cases l with
      | nil => intro g hg; simp [splitGo] at hg
      | cons a t =>
          intro g hg
          simp only [splitGo, List.mem_cons] at hg
          rcases hg with hg | hg
          · subst hg
            rw [List.length_take]
            exact min_le_left _ _
          · exact ih ((a :: t).drop p) (drop_length_le_of_pos a t p hp fuel hl) g hg

theorem splitGo_ne_nil_of_arg {α : Type} (p fuel : Nat) (l : List α)
    (h : splitGo fuel l p ≠ []) : l ≠ [] := by
  intro he
  subst he
  exact h (splitGo_nil fuel p)

theorem splitGo_dropLast {α : Type} (p : Nat) (hp : 1 ≤ p) :
    ∀ fuel (l : List α), l.length ≤ fuel →
      ∀ g ∈ (splitGo fuel l p).dropLast, g.length = p := by
  intro fuel
  induction fuel with
  | zero =>
      intro l hl
      have : l = [] := List.eq_nil_of_length_eq_zero (Nat.le_zero.mp hl)
      subst this; intro g hg; simp [splitGo] at hg
  | succ fuel ih =>
      intro l hl
      cases l with
      | nil => intro g hg; simp [splitGo] at hg
      | cons a t =>
          intro g hg
          simp only [splitGo] at hg
          rcases eq_or_ne (splitGo fuel ((a :: t).drop p) p) [] with he | he
          · rw [he] at hg
            simp at hg
          · rw [List.dropLast_cons_of_ne_nil he, List.mem_cons] at hg
            rcases hg with hg | hg
            · subst hg
              have hne : (a :: t).drop p ≠ [] := splitGo_ne_nil_of_arg p fuel _ he
              have hlen : p < (a :: t).length := by
                by_contra hc
                exact hne (List.drop_eq_nil_of_le (by omega))
              rw [List.length_take]
              omega
            · exact ih ((a :: t).drop p) (drop_length_le_of_pos a t p hp fuel hl) g hg

/-- C2: for every ordered row sequence and every page size `p > 0`,
`split_dataframe` returns exactly `⌈n/p⌉ = (n + p - 1) / p` groups (zero
groups when `n = 0`), each group has at most `p` rows, every group except
possibly the last has exactly `p` rows, concatenating the groups in order
reproduces the original row sequence, and the source's default page size
is 58. -/
theorem C2_split_dataframe_pagination (α : Type) (df : List α) (p : Nat) (hp : 0 < p) :
    (split_dataframe df p).length = (df.length + p - 1) / p ∧
    (split_dataframe df p).flatten = df ∧
    (∀ g ∈ split_dataframe df p, g.length ≤ p) ∧
    (∀ g ∈ (split_dataframe df p).dropLast, g.length = p) ∧
    default_rows_per_page = 58 :=
  ⟨splitGo_length p hp df.length df le_rfl, splitGo_flatten p hp df.length df le_rfl,
   splitGo_group_le p hp df.length df le_rfl, splitGo_dropLast p hp df.length df le_rfl, rfl⟩

/-- Witness for C2 at the concrete input `[10, 20, 30, 40, 50]` with page size 2. -/
theorem C2_split_dataframe_pagination_witness :
    (split_dataframe ([10, 20, 30, 40, 50] : List Nat) 2).length
        = (([10, 20, 30, 40, 50] : List Nat).length + 2 - 1) / 2 ∧
    (split_dataframe ([10, 20, 30, 40, 50] : List Nat) 2).flatten = [10, 20, 30, 40, 50] ∧
    (∀ g ∈ split_dataframe ([10, 20, 30, 40, 50] : List Nat) 2, g.length ≤ 2) ∧
    (∀ g ∈ (split_dataframe ([10, 20, 30, 40, 50] : List Nat) 2).dropLast, g.length = 2) ∧
    default_rows_per_page = 58 :=
  C2_split_dataframe_pagination Nat [10, 20, 30, 40, 50] 2 (by decide)

/-- C9: for `rows_per_page ≥ 1` the `while` loop of `split_dataframe`
terminates on every input (fuel `df.length` suffices, and any larger fuel
gives the same pages), and the precondition is necessary: with
`rows_per_page = 0` and a non-empty input the loop never finishes, i.e. it
exhausts every fuel bound. -/
theorem C9_split_dataframe_termination (α : Type) (df : List α) (p : Nat) (hp : 1 ≤ p) :
    (∀ fuel, df.length ≤ fuel → splitLoop fuel df p = some (split_dataframe df p)) ∧
    (df ≠ [] → ∀ fuel, splitLoop fuel df 0 = none) := by
  constructor
  · intro fuel hfuel
    rw [splitLoop_some p hp fuel df hfuel, split_dataframe,
      splitGo_fuel p hp fuel df.length df hfuel le_rfl]
  · intro hne fuel
    exact splitLoop_zero_none fuel df hne

/-- Witness for C9 at the concrete input `[1, 2, 3]` with page size 2 (and
page size 0 for the divergence half). -/
theorem C9_split_dataframe_termination_witness :
    splitLoop 4 ([1, 2, 3] : List Nat) 2 = some (split_dataframe [1, 2, 3] 2) ∧
    splitLoop 6 ([1, 2, 3] : List Nat) 0 = none :=
  ⟨(C9_split_dataframe_termination Nat [1, 2, 3] 2 (by decide)).1 4 (by decide),
   (C9_split_dataframe_termination Nat [1, 2, 3] 2 (by decide)).2 (by decide) 6⟩

/-! ### Field Formatter: `PDFGenerator.calculate_vat_position`

The Python function receives a spreadsheet amount, computes
`vat_middle = round(vat_amount, 2)` (Python's round-half-to-even), converts
it to its string form, splits on the decimal point and counts the
characters of the part before the point:
```
if integ_num == 5: return "vat_dos"
elif 1000 < vat_middle < 2000: return "vat_dos"
else: return "vat"
```
Amounts are modelled as exact decimal rationals.  `vatCents` is the rounded
amount in hundredths (an integer), and `round2` is `vat_middle` itself.
For such a value Python's `str` renders an optional minus sign, the
truncated integer part, the decimal point, and the fractional digits, so
`len(str(vat_middle).split(".")[0])` equals the decimal digit count of the
truncated absolute integer part plus one for the sign when the amount is
negative; `integerPartLen` computes exactly that. -/

def roundHalfEven (x : ℚ) : ℤ :=
  if x - ⌊x⌋ < 1/2 then ⌊x⌋
  else if (1 : ℚ)/2 < x - ⌊x⌋ then ⌊x⌋ + 1
  else if ⌊x⌋ % 2 = 0 then ⌊x⌋ else ⌊x⌋ + 1

def vatCents (vat_amount : ℚ) : ℤ := roundHalfEven (vat_amount * 100)

def round2 (vat_amount : ℚ) : ℚ := (vatCents vat_amount : ℚ) / 100

def intDigitsGo : Nat → Nat → Nat
  | 0, _ => 1
  | fuel + 1, n => if n < 10 then 1 else intDigitsGo fuel (n / 10) + 1

/-- Decimal digit count of a natural number, i.e. Python's `len(str(n))`. -/
def intDigits (n : Nat) : Nat := intDigitsGo n n

def integerPartLen (vat_amount : ℚ) : Nat :=
  intDigits ((vatCents vat_amount).natAbs / 100) +
    (if vatCents vat_amount < 0 then 1 else 0)

def calculate_vat_position (vat_amount : ℚ) : String :=
  if integerPartLen vat_amount = 5 then "vat_dos"
  else if 1000 < round2 vat_amount ∧ round2 vat_amount < 2000 then "vat_dos"
  else "vat"

theorem intDigitsGo_eq_log : ∀ fuel n, n ≤ fuel → intDigitsGo fuel n = Nat.log 10 n + 1 := by
  intro fuel
  induction fuel with
  | zero =>
      intro n hn
      have : n = 0 := by omega
      subst this
      rw [Nat.log_zero_right]
      rfl
  | succ fuel ih =>
      intro n hn
      by_cases h : n < 10
      · simp only [intDigitsGo, if_pos h]
        rw [Nat.log_of_lt h]
      · simp only [intDigitsGo, if_neg h]
        rw [ih (n / 10) (by omega)]
        have hpos : 0 < Nat.log 10 n := Nat.log_pos (by norm_num) (by omega)
        have hdiv : Nat.log 10 (n / 10) = Nat.log 10 n - 1 := Nat.log_div_base 10 n
        omega

theorem intDigits_eq_succ (m d : Nat) (hd : 1 ≤ d) :
    intDigits m = d + 1 ↔ 10 ^ d ≤ m ∧ m < 10 ^ (d + 1) := by
  rw [intDigits, intDigitsGo_eq_log m m le_rfl]
  constructor
  · intro h
    have hlog : Nat.log 10 m = d := by omega
    have hm : m ≠ 0 := by
      intro he
      subst he
      rw [Nat.log_zero_right] at hlog
      omega
    have hle := Nat.pow_log_le_self 10 hm
    have hlt := Nat.lt_pow_succ_log_self (b := 10) (by norm_num) m
    rw [hlog] at hle hlt
    exact ⟨hle, hlt⟩
  · rintro ⟨hl, hr⟩
    rw [Nat.log_eq_of_pow_le_of_lt_pow hl hr]

theorem intDigits_eq_five (m : Nat) : intDigits m = 5 ↔ 10000 ≤ m ∧ m < 100000 := by
  have h := intDigits_eq_succ m 4 (by omega)
  norm_num at h
  exact h

theorem intDigits_eq_four (m : Nat) : intDigits m = 4 ↔ 1000 ≤ m ∧ m < 10000 := by
  have h := intDigits_eq_succ m 3 (by omega)
  norm_num at h
  exact h

theorem cvp_eq_dos_iff_core (v : ℚ) :
    calculate_vat_position v = "vat_dos" ↔
      integerPartLen v = 5 ∨ (1000 < round2 v ∧ round2 v < 2000) := by
  rw [calculate_vat_position]
  split_ifs with h1 h2
  · simp [h1]
  · simp [h1, h2]
  · simp only [h1, h2, or_self, iff_false, false_or, and_false]
    decide

theorem integerPartLen_eq_five_nonneg (v : ℚ) (h : 0 ≤ vatCents v) :
    integerPartLen v = 5 ↔ 10000 ≤ round2 v ∧ round2 v < 100000 := by
  have e1 : (10000 : ℚ) ≤ round2 v ↔ (1000000 : ℤ) ≤ vatCents v := by
    rw [round2, le_div_iff₀ (by norm_num : (0:ℚ) < 100)]
    norm_cast
  have e2 : round2 v < (100000 : ℚ) ↔ vatCents v < (10000000 : ℤ) := by
    rw [round2, div_lt_iff₀ (by norm_num : (0:ℚ) < 100)]
    norm_cast
  rw [integerPartLen, if_neg (by omega : ¬ vatCents v < 0), Nat.add_zero,
    intDigits_eq_five, e1, e2]
  omega

theorem integerPartLen_eq_five_neg (v : ℚ) (h : vatCents v < 0) :
    integerPartLen v = 5 ↔ -10000 < round2 v ∧ round2 v ≤ -1000 := by
  have e1 : (-10000 : ℚ) < round2 v ↔ (-1000000 : ℤ) < vatCents v := by
    rw [round2, lt_div_iff₀ (by norm_num : (0:ℚ) < 100)]
    norm_cast
  have e2 : round2 v ≤ (-1000 : ℚ) ↔ vatCents v ≤ (-100000 : ℤ) := by
    rw [round2, div_le_iff₀ (by norm_num : (0:ℚ) < 100)]
    norm_cast
  rw [integerPartLen, if_pos h]
  have e3 : intDigits ((vatCents v).natAbs / 100) + 1 = 5 ↔
      intDigits ((vatCents v).natAbs / 100) = 4 := by omega
  rw [e3, intDigits_eq_four, e1, e2]
  omega

theorem cvp_dos_characterization (v : ℚ) :
    calculate_vat_position v = "vat_dos" ↔
      (10000 ≤ round2 v ∧ round2 v < 100000) ∨
      (-10000 < round2 v ∧ round2 v ≤ -1000) ∨
      (1000 < round2 v ∧ round2 v < 2000) := by
  rw [cvp_eq_dos_iff_core]
  rcases lt_or_le (vatCents v) 0 with h | h
  · rw [integerPartLen_eq_five_neg v h]
    have hr : round2 v < 0 := by
      rw [round2]
      exact div_neg_of_neg_of_pos (by exact_mod_cast h) (by norm_num)
    constructor
    · rintro (h5 | hrange)
      · exact Or.inr (Or.inl h5)
      · exact Or.inr (Or.inr hrange)
    · rintro (h5 | h5 | h5)
      · linarith [h5.1]
      · exact Or.inl h5
      · linarith [h5.1]
  · rw [integerPartLen_eq_five_nonneg v h]
    have hr : 0 ≤ round2 v := by
      rw [round2]
      exact div_nonneg (by exact_mod_cast h) (by norm_num)
    constructor
    · rintro (h5 | hrange)
      · exact Or.inl h5
      · exact Or.inr (Or.inr hrange)
    · rintro (h5 | h5 | h5)
      · exact Or.inl h5
      · linarith [h5.2]
      · exact Or.inr h5

theorem cvp_eval (v : ℚ) (k : ℤ) (hk : vatCents v = k) :
    calculate_vat_position v =
      if intDigits (k.natAbs / 100) + (if k < 0 then 1 else 0) = 5 then "vat_dos"
      else if (1000 : ℚ) < (k : ℚ) / 100 ∧ (k : ℚ) / 100 < 2000 then "vat_dos"
      else "vat" := by
  rw [calculate_vat_position, integerPartLen, round2, hk]

/-- C3 counterexample: at VAT amount -1234.5 the rounded amount's integer
part has only 4 digits and the amount is not strictly between 1000 and
2000, yet `calculate_vat_position` returns the alternate slot, because the
leading minus sign makes the integer-part string 5 characters long.  So the
claim's rule, read with "exactly 5 digits", predicts the standard slot and
fails on the code. -/
theorem C3_vat_position_counterexample :
    calculate_vat_position (-1234.5) = "vat_dos" ∧
    intDigits ((vatCents (-1234.5)).natAbs / 100) = 4 ∧
    ¬ (1000 < round2 (-1234.5) ∧ round2 (-1234.5) < 2000) := by
  have hk : vatCents (-1234.5) = -123450 := by norm_num [vatCents, roundHalfEven]
  refine ⟨?_, ?_, ?_⟩
  · have hd : intDigits ((-123450 : ℤ).natAbs / 100) +
        (if (-123450 : ℤ) < 0 then 1 else 0) = 5 := by decide
    rw [cvp_eval (-1234.5) (-123450) hk, if_pos hd]
  · rw [hk]
    decide
  · rw [round2, hk]
    norm_num

/-- C3 (amended): `calculate_vat_position` rounds the amount to 2 decimals
and returns the alternate slot ("vat_dos") exactly when the integer part of
the rounded amount's string form has 5 characters — i.e. the rounded amount
lies in [10000, 100000) or, with the leading minus sign counted, in
(-10000, -1000] — or the rounded amount is strictly between 1000 and 2000,
and the standard slot ("vat") otherwise; in particular the claim's three
examples 1999.99 → alternate, 99999.00 → alternate, 500.00 → standard. -/
theorem C3_vat_position_amended :
    (∀ v : ℚ, calculate_vat_position v = "vat_dos" ↔
      (10000 ≤ round2 v ∧ round2 v < 100000) ∨
      (-10000 < round2 v ∧ round2 v ≤ -1000) ∨
      (1000 < round2 v ∧ round2 v < 2000)) ∧
    calculate_vat_position 1999.99 = "vat_dos" ∧
    calculate_vat_position 99999 = "vat_dos" ∧
    calculate_vat_position 500 = "vat" := by
  refine ⟨cvp_dos_characterization, ?_, ?_, ?_⟩
  · have hd : ¬ (intDigits ((199999 : ℤ).natAbs / 100) +
        (if (199999 : ℤ) < 0 then 1 else 0) = 5) := by decide
    rw [cvp_eval 1999.99 199999 (by norm_num [vatCents, roundHalfEven]),
      if_neg hd, if_pos (by norm_num)]
  · have hd : intDigits ((9999900 : ℤ).natAbs / 100) +
        (if (9999900 : ℤ) < 0 then 1 else 0) = 5 := by decide
    rw [cvp_eval 99999 9999900 (by norm_num [vatCents, roundHalfEven]), if_pos hd]
  · have hd : ¬ (intDigits ((50000 : ℤ).natAbs / 100) +
        (if (50000 : ℤ) < 0 then 1 else 0) = 5) := by decide
    rw [cvp_eval 500 50000 (by norm_num [vatCents, roundHalfEven]),
      if_neg hd, if_neg (by norm_num)]

/-- C10: for every VAT amount whose rounded value lies in (-10000, -1000],
the integer-part string of the rounded amount has 5 characters because the
leading minus sign counts, so `calculate_vat_position` returns the
alternate slot even though the integer part has only 4 digits; and such a
negative rounded amount never satisfies the strictly-between-1000-and-2000
condition. -/
theorem C10_negative_vat_sign_counts (v : ℚ)
    (h1 : -10000 < round2 v) (h2 : round2 v ≤ -1000) :
    calculate_vat_position v = "vat_dos" ∧
    intDigits ((vatCents v).natAbs / 100) = 4 ∧
    ¬ (1000 < round2 v ∧ round2 v < 2000) := by
  have hneg : vatCents v < 0 := by
    by_contra hc
    push_neg at hc
    have : (0 : ℚ) ≤ round2 v := by
      rw [round2]
      exact div_nonneg (by exact_mod_cast hc) (by norm_num)
    linarith
  refine ⟨?_, ?_, ?_⟩
  · rw [cvp_eq_dos_iff_core]
    exact Or.inl ((integerPartLen_eq_five_neg v hneg).mpr ⟨h1, h2⟩)
  · have h5 := (integerPartLen_eq_five_neg v hneg).mpr ⟨h1, h2⟩
    rw [integerPartLen, if_pos hneg] at h5
    omega
  · intro hc
    linarith [hc.1]

/-- Witness for C10 at the concrete VAT amount -5000.25. -/
theorem C10_negative_vat_sign_counts_witness :
    calculate_vat_position (-5000.25) = "vat_dos" ∧
    intDigits ((vatCents (-5000.25)).natAbs / 100) = 4 ∧
    ¬ (1000 < round2 (-5000.25) ∧ round2 (-5000.25) < 2000) :=
  C10_negative_vat_sign_counts (-5000.25)
    (by norm_num [round2, vatCents, roundHalfEven])
    (by norm_num [round2, vatCents, roundHalfEven])

/-! ### Field Formatter: quantity in `PDFGenerator.create_front_page`

The Python code computes
```
quantity_middle = round(row['Invoice Amount'] / 1000, 5)
quantity_final = format(quantity_middle, '.5f').rstrip('0')
quantity_fontsize = 6.4 if len(quantity_final) > 7 else 7
```
`quantityUnits` is `quantity_middle` in hundred-thousandths (an integer,
round-half-to-even), `format5f` renders `format(x, '.5f')` (optional minus
sign, truncated integer part, point, five zero-padded fractional digits),
and `rstrip0` strips trailing `'0'` characters unconditionally — the
decimal point itself is never stripped, so an integral amount ends in
a bare point. -/

def rstrip0 (s : List Char) : List Char :=
  (s.reverse.dropWhile (fun c => c == '0')).reverse

def format5f (u : ℤ) : List Char :=
  (if u < 0 then ['-'] else []) ++ Nat.toDigits 10 (u.natAbs / 100000) ++ ['.'] ++
    List.replicate (5 - (Nat.toDigits 10 (u.natAbs % 100000)).length) '0' ++
    Nat.toDigits 10 (u.natAbs % 100000)

def quantityUnits (amount : ℚ) : ℤ := roundHalfEven (amount / 1000 * 100000)

def quantity_final (amount : ℚ) : String :=
  String.mk (rstrip0 (format5f (quantityUnits amount)))

def quantity_fontsize (amount : ℚ) : ℚ :=
  if 7 < (quantity_final amount).length then 6.4 else 7

theorem quantity_final_eval (a : ℚ) (u : ℤ) (hu : quantityUnits a = u) :
    quantity_final a = String.mk (rstrip0 (format5f u)) := by
  rw [quantity_final, hu]

theorem quantity_fontsize_eval (a : ℚ) (u : ℤ) (hu : quantityUnits a = u) :
    quantity_fontsize a =
      if 7 < (String.mk (rstrip0 (format5f u))).length then 6.4 else 7 := by
  rw [quantity_fontsize, quantity_final, hu]

theorem dropWhile_head_not (p : Char → Bool) :
    ∀ (l : List Char) (c : Char), (l.dropWhile p).head? = some c → p c = false := by
  intro l
  induction l with
  | nil => intro c h; simp at h
  | cons a t ih =>
      intro c h
      rw [List.dropWhile_cons] at h
      by_cases hp : p a
      · rw [if_pos hp] at h
        exact ih c h
      · rw [if_neg hp] at h
        simp only [List.head?_cons, Option.some_inj] at h
        subst h
        exact Bool.of_not_eq_true hp

theorem rstrip0_getLast (s : List Char) : (rstrip0 s).getLast? ≠ some '0' := by
  intro h
  rw [rstrip0, List.getLast?_reverse] at h
  have := dropWhile_head_not (fun c => c == '0') s.reverse '0' h
  simp at this

/-- C4: the quantity string is the invoice amount divided by 1000, rounded
to 5 decimal places, rendered with 5 fractional digits, trailing zeros then
stripped unconditionally — the result never ends in a `'0'`, but an
integral amount like 12000 yields `"12."` with no digit left after the
point; the font size is 6.4 exactly when the string exceeds 7 characters
and 7 otherwise; amount 12345.6789 yields `"12.34568"` of length 8 and
font size 6.4. -/
theorem C4_quantity_formatting :
    quantity_final 12345.6789 = "12.34568" ∧
    (quantity_final 12345.6789).length = 8 ∧
    quantity_fontsize 12345.6789 = 6.4 ∧
    quantity_final 12000 = "12." ∧
    (∀ a : ℚ, (quantity_final a).data.getLast? ≠ some '0') ∧
    (∀ a : ℚ, quantity_fontsize a = if 7 < (quantity_final a).length then 6.4 else 7) := by
  have hu1 : quantityUnits 12345.6789 = 1234568 := by
    norm_num [quantityUnits, roundHalfEven]
  have hu2 : quantityUnits 12000 = 1200000 := by
    norm_num [quantityUnits, roundHalfEven]
  refine ⟨?_, ?_, ?_, ?_, ?_, ?_⟩
  · rw [quantity_final_eval 12345.6789 1234568 hu1]
    decide
  · rw [quantity_final_eval 12345.6789 1234568 hu1]
    decide
  · rw [quantity_fontsize_eval 12345.6789 1234568 hu1, if_pos (by decide)]
  · rw [quantity_final_eval 12000 1200000 hu2]
    decide
  · intro a
    exact rstrip0_getLast (format5f (quantityUnits a))
  · intro a
    rfl

/-! ### Field Formatter: text truncation and padding in `PDFGenerator.create_backup_pages`

The Python code formats the two text columns with
```
site_name['Site Name '] = site_name['Site Name '].str.slice(0, 30).str.ljust(30)
client_ref['Client Ref'] = client_ref['Client Ref'].str.slice(0, 20).str.ljust(20)
```
`sliceLjust limit` is `.str.slice(0, limit).str.ljust(limit)`: keep the
first `limit` characters, then right-pad with spaces to exactly `limit`. -/

def sliceLjust (limit : Nat) (s : String) : String :=
  String.mk (s.data.take limit ++
    List.replicate (limit - (s.data.take limit).length) ' ')

def format_site_name (s : String) : String := sliceLjust 30 s

def format_client_ref (s : String) : String := sliceLjust 20 s

theorem sliceLjust_length (limit : Nat) (s : String) :
    (sliceLjust limit s).length = limit := by
  rw [sliceLjust]
  simp only [String.length, List.length_append, List.length_take, List.length_replicate]
  omega

theorem sliceLjust_of_le (limit : Nat) (s : String) (h : limit ≤ s.length) :
    sliceLjust limit s = String.mk (s.data.take limit) := by
  rw [sliceLjust]
  have hlen : (s.data.take limit).length = limit := by
    rw [List.length_take]
    exact min_eq_left h
  rw [hlen, Nat.sub_self, List.replicate_zero, List.append_nil]

theorem sliceLjust_of_ge (limit : Nat) (s : String) (h : s.length ≤ limit) :
    sliceLjust limit s = String.mk (s.data ++ List.replicate (limit - s.length) ' ') := by
  rw [sliceLjust, List.take_of_length_le h]
  have hlen : s.data.length = s.length := rfl
  rw [hlen]

/-- C8: the formatted site-name value always has length exactly 30 and the
formatted client-reference value length exactly 20; a string of at least
the limit is truncated to its first `limit` characters, a shorter one is
right-padded with spaces; site name "AB" becomes "AB" followed by 28
spaces, and a 35-character site name is truncated to its first 30
characters. -/
theorem C8_site_client_padding :
    (∀ s : String, (format_site_name s).length = 30) ∧
    (∀ s : String, (format_client_ref s).length = 20) ∧
    (∀ s : String, 30 ≤ s.length →
        format_site_name s = String.mk (s.data.take 30)) ∧
    (∀ s : String, s.length ≤ 30 →
        format_site_name s = String.mk (s.data ++ List.replicate (30 - s.length) ' ')) ∧
    (∀ s : String, 20 ≤ s.length →
        format_client_ref s = String.mk (s.data.take 20)) ∧
    (∀ s : String, s.length ≤ 20 →
        format_client_ref s = String.mk (s.data ++ List.replicate (20 - s.length) ' ')) ∧
    format_site_name "AB" = String.mk ('A' :: 'B' :: List.replicate 28 ' ') ∧
    format_site_name (String.mk (List.replicate 35 'X')) = String.mk (List.replicate 30 'X') := by
  refine ⟨fun s => sliceLjust_length 30 s, fun s => sliceLjust_length 20 s,
    fun s h => sliceLjust_of_le 30 s h, fun s h => sliceLjust_of_ge 30 s h,
    fun s h => sliceLjust_of_le 20 s h, fun s h => sliceLjust_of_ge 20 s h, ?_, ?_⟩
  · decide
  · decide

/-- Witness for C8: the truncation half at a 35-character site name and the
padding half at the site name "AB". -/
theorem C8_site_client_padding_witness :
    (30 ≤ (String.mk (List.replicate 35 'X')).length ∧
      format_site_name (String.mk (List.replicate 35 'X')) =
        String.mk ((String.mk (List.replicate 35 'X')).data.take 30)) ∧
    ("AB".length ≤ 30 ∧
      format_site_name "AB" =
        String.mk ("AB".data ++ List.replicate (30 - "AB".length) ' ')) :=
  ⟨⟨by decide, C8_site_client_padding.2.2.1 (String.mk (List.replicate 35 'X')) (by decide)⟩,
   ⟨by decide, C8_site_client_padding.2.2.2.1 "AB" (by decide)⟩⟩

/-! ### Data model and `PDFGenerator.format_accounting_month`

`format_accounting_month(date)` is `date.strftime('%b-%y')`: a 3-letter
month abbreviation, a dash, and the zero-padded last two digits of the
year.  Dates are modelled as month/year pairs (the day plays no role in
the formatting).  Rows carry exactly the columns the verified operations
read: the invoice row's number, PO, `Line Description` (used as the
accounting-period source), and the three amounts; the backup row's
supplier quote reference, client reference, site name, reviewed estimate,
financial month and PO order number. -/

structure CalDate where
  month : Nat
  year : Nat

def monthAbbrev : Nat → String
  | 1 => "Jan"
  | 2 => "Feb"
  | 3 => "Mar"
  | 4 => "Apr"
  | 5 => "May"
  | 6 => "Jun"
  | 7 => "Jul"
  | 8 => "Aug"
  | 9 => "Sep"
  | 10 => "Oct"
  | 11 => "Nov"
  | 12 => "Dec"
  | _ => ""

def twoDigitYear (y : Nat) : String :=
  (if y % 100 < 10 then "0" else "") ++ toString (y % 100)

def format_accounting_month (d : CalDate) : String :=
  monthAbbrev d.month ++ "-" ++ twoDigitYear d.year

structure InvoiceRow where
  invoiceNumber : String
  po : String
  lineDescription : CalDate
  invoiceAmount : ℚ
  vatAmount : ℚ
  total : ℚ

structure BackupRow where
  supplierQuoteRef : String
  clientRef : String
  siteName : String
  reviewedQuote : ℚ
  financialMonth : CalDate
  poOrderNo : String

/-! ### Invoice Assembler: filtering in `InvoiceProcessor.process_single_invoice`

The Python code normalises the backup data's `Financial Month` column to
the `Mon-YY` form and keeps the rows matching the invoice:
```
acc_month_str = self.pdf_generator.format_accounting_month(row['Line Description'])
condition1 = backup_df['Financial Month'] == acc_month_str
condition2 = backup_df['PO Order No.'] == row['PO']
filtered_df = backup_df[condition1 & condition2]
```
Both comparisons are exact equality of the formatted month string and of
the PO value. -/

def filterBackup (backup_data : List BackupRow) (row : InvoiceRow) : List BackupRow :=
  backup_data.filter (fun b =>
    (format_accounting_month b.financialMonth ==
        format_accounting_month row.lineDescription) &&
      (b.poOrderNo == row.po))

/-- C5: the rows selected for an invoice are exactly the backup rows whose
formatted financial month equals the invoice's formatted accounting period
and whose PO reference equals the invoice's PO reference, both by exact
equality; the selection is a subsequence of the backup data, so it keeps
the backup rows' order. -/
theorem C5_backup_filtering (backup_data : List BackupRow) (row : InvoiceRow) :
    List.Sublist (filterBackup backup_data row) backup_data ∧
    ∀ b : BackupRow, b ∈ filterBackup backup_data row ↔
      b ∈ backup_data ∧
      format_accounting_month b.financialMonth =
        format_accounting_month row.lineDescription ∧
      b.poOrderNo = row.po := by
  constructor
  · exact List.filter_sublist backup_data
  · intro b
    rw [filterBackup, List.mem_filter]
    simp [and_assoc]

/-- Witness for C5: a two-row backup dataset in which exactly the matching
row survives the filter. -/
theorem C5_backup_filtering_witness :
    (⟨"QR1", "CR1", "Site A", 100, ⟨1, 2025⟩, "PO1"⟩ : BackupRow) ∈
        filterBackup
          [⟨"QR1", "CR1", "Site A", 100, ⟨1, 2025⟩, "PO1"⟩,
           ⟨"QR2", "CR2", "Site B", 200, ⟨2, 2025⟩, "PO9"⟩]
          ⟨"INV1", "PO1", ⟨1, 2025⟩, 100, 20, 120⟩ ↔
      (⟨"QR1", "CR1", "Site A", 100, ⟨1, 2025⟩, "PO1"⟩ : BackupRow) ∈
          [⟨"QR1", "CR1", "Site A", 100, ⟨1, 2025⟩, "PO1"⟩,
           (⟨"QR2", "CR2", "Site B", 200, ⟨2, 2025⟩, "PO9"⟩ : BackupRow)] ∧
      format_accounting_month ⟨1, 2025⟩ = format_accounting_month ⟨1, 2025⟩ ∧
      "PO1" = "PO1" :=
  (C5_backup_filtering
    [⟨"QR1", "CR1", "Site A", 100, ⟨1, 2025⟩, "PO1"⟩,
     ⟨"QR2", "CR2", "Site B", 200, ⟨2, 2025⟩, "PO9"⟩]
    ⟨"INV1", "PO1", ⟨1, 2025⟩, 100, 20, 120⟩).2
    ⟨"QR1", "CR1", "Site A", 100, ⟨1, 2025⟩, "PO1"⟩

/-! ### Cross-reference accumulation and the batch loop

Per processed invoice, `InvoiceProcessor.process_single_invoice` appends
one `(Supplier Quote ref., Invoice Number)` row per filtered backup row to
the processor-wide accumulator:
```
qt_temp = pd.DataFrame({'Supplier Quote ref.': filtered_data['Supplier Quote ref.'],
                        'Invoice Number': row['Invoice Number']})
self.qt_data = pd.concat([self.qt_data, qt_temp], ignore_index=True)
```
`InvoiceProcessor.process_all_invoices` iterates the invoice rows in input
order inside one `try`, calling `process_single_invoice` for each; any
exception raised while processing an invoice propagates (the per-invoice
handler re-raises), the loop stops, the `except` branch returns `False`
and the `QT_Fillable_data.xlsx` export is not written; only when the loop
finishes is the accumulated table exported and `True` returned.  Whether a
given invoice raises depends on outside effects (template files, parse
errors), abstracted here by the oracle `err`; `batchGo` carries the list
of invoices processed so far (reversed), the accumulator, and finishes
with `true` exactly when the export was written. -/

structure CrossReferenceRow where
  supplierQuoteRef : String
  invoiceNumber : String

def crossRefRows (backup_data : List BackupRow) (row : InvoiceRow) : List CrossReferenceRow :=
  (filterBackup backup_data row).map (fun b => ⟨b.supplierQuoteRef, row.invoiceNumber⟩)

def process_single_qt (backup_data : List BackupRow) (qt_data : List CrossReferenceRow)
    (row : InvoiceRow) : List CrossReferenceRow :=
  qt_data ++ crossRefRows backup_data row

def process_all_qt (backup_data : List BackupRow) (invoices : List InvoiceRow) :
    List CrossReferenceRow :=
  invoices.foldl (process_single_qt backup_data) []

def batchGo (err : InvoiceRow → Bool) (backup_data : List BackupRow) :
    List InvoiceRow → List InvoiceRow → List CrossReferenceRow →
      List InvoiceRow × List CrossReferenceRow × Bool
  | [], processed, qt_data => (processed.reverse, qt_data, true)
  | row :: rest, processed, qt_data =>
      if err row then (processed.reverse, qt_data, false)
      else batchGo err backup_data rest (row :: processed)
        (process_single_qt backup_data qt_data row)

def process_all_invoices (err : InvoiceRow → Bool) (backup_data : List BackupRow)
    (invoices : List InvoiceRow) : List InvoiceRow × List CrossReferenceRow × Bool :=
  batchGo err backup_data invoices [] []

theorem process_all_qt_go (backup_data : List BackupRow) :
    ∀ (invoices : List InvoiceRow) (init : List CrossReferenceRow),
      invoices.foldl (process_single_qt backup_data) init =
        init ++ (invoices.map (fun r => crossRefRows backup_data r)).flatten := by
  intro invoices
  induction invoices with
  | nil => intro init; simp
  | cons r rest ih =>
      intro init
      simp only [List.foldl_cons, List.map_cons, List.flatten_cons]
      rw [ih, process_single_qt, List.append_assoc]

/-- C6: processing an invoice appends exactly one cross-reference row per
filtered backup row, pairing its supplier quote reference with the invoice
number, in filtered-row order; the rows already accumulated are preserved
unchanged at the front; and a whole batch accumulates the per-invoice
blocks in invoice-processing order. -/
theorem C6_crossref_accumulator (backup_data : List BackupRow)
    (qt_data : List CrossReferenceRow) (row : InvoiceRow) (invoices : List InvoiceRow) :
    process_single_qt backup_data qt_data row =
      qt_data ++ (filterBackup backup_data row).map
        (fun b => ⟨b.supplierQuoteRef, row.invoiceNumber⟩) ∧
    (process_single_qt backup_data qt_data row).take qt_data.length = qt_data ∧
    process_all_qt backup_data invoices =
      (invoices.map (fun r => crossRefRows backup_data r)).flatten := by
  refine ⟨rfl, ?_, ?_⟩
  · rw [process_single_qt, List.take_left]
  · rw [process_all_qt, process_all_qt_go backup_data invoices [], List.nil_append]

theorem batchGo_spec (err : InvoiceRow → Bool) (backup_data : List BackupRow) :
    ∀ (invoices processed : List InvoiceRow) (qt_data : List CrossReferenceRow),
      (batchGo err backup_data invoices processed qt_data).1 =
        processed.reverse ++ invoices.takeWhile (fun r => !err r) ∧
      ((batchGo err backup_data invoices processed qt_data).2.2 = true ↔
        ∀ r ∈ invoices, err r = false) := by
  intro invoices
  induction invoices with
  | nil =>
      intro processed qt_data
      constructor
      · simp [batchGo]
      · simp [batchGo]
  | cons row rest ih =>
      intro processed qt_data
      by_cases h : err row
      · constructor
        · simp [batchGo, h, List.takeWhile_cons]
        · simp only [batchGo, if_pos h]
          simp [h]
      · constructor
        · simp only [batchGo, if_neg h]
          rw [(ih (row :: processed) (process_single_qt backup_data qt_data row)).1]
          simp [List.takeWhile_cons, h]
        · simp only [batchGo, if_neg h]
          rw [(ih (row :: processed) (process_single_qt backup_data qt_data row)).2]
          simp [h]

/-- C7: the batch runner processes invoices in input order up to the first
failing one — after a failure no subsequent invoice is processed — and the
run reports success and writes the cross-reference export exactly when no
invoice in the batch fails. -/
theorem C7_batch_abort (err : InvoiceRow → Bool) (backup_data : List BackupRow)
    (invoices : List InvoiceRow) :
    (process_all_invoices err backup_data invoices).1 =
      invoices.takeWhile (fun r => !err r) ∧
    ((process_all_invoices err backup_data invoices).2.2 = true ↔
      ∀ r ∈ invoices, err r = false) := by
  have h := batchGo_spec err backup_data invoices [] []
  rw [process_all_invoices]
  rcases h with ⟨h1, h2⟩
  exact ⟨by rw [h1]; simp, h2⟩

/-- Witness for C7: a three-invoice batch whose second invoice fails stops
after the first invoice and does not write the export; the same batch with
no failure processes everything and writes it. -/
theorem C7_batch_abort_witness :
    ((process_all_invoices (fun r => r.po == "BAD") []
        [⟨"I1", "PO1", ⟨1, 2025⟩, 1, 0, 1⟩, ⟨"I2", "BAD", ⟨1, 2025⟩, 1, 0, 1⟩,
         ⟨"I3", "PO3", ⟨1, 2025⟩, 1, 0, 1⟩]).1 =
      ([⟨"I1", "PO1", ⟨1, 2025⟩, 1, 0, 1⟩, ⟨"I2", "BAD", ⟨1, 2025⟩, 1, 0, 1⟩,
        ⟨"I3", "PO3", ⟨1, 2025⟩, 1, 0, 1⟩] : List InvoiceRow).takeWhile
          (fun r => !(r.po == "BAD"))) ∧
    ((process_all_invoices (fun r => r.po == "BAD") []
        [⟨"I1", "PO1", ⟨1, 2025⟩, 1, 0, 1⟩, ⟨"I2", "BAD", ⟨1, 2025⟩, 1, 0, 1⟩,
         ⟨"I3", "PO3", ⟨1, 2025⟩, 1, 0, 1⟩]).2.2 = true ↔
      ∀ r ∈ ([⟨"I1", "PO1", ⟨1, 2025⟩, 1, 0, 1⟩, ⟨"I2", "BAD", ⟨1, 2025⟩, 1, 0, 1⟩,
              ⟨"I3", "PO3", ⟨1, 2025⟩, 1, 0, 1⟩] : List InvoiceRow),
        (fun r : InvoiceRow => r.po == "BAD") r = false) :=
  C7_batch_abort (fun r => r.po == "BAD") []
    [⟨"I1", "PO1", ⟨1, 2025⟩, 1, 0, 1⟩, ⟨"I2", "BAD", ⟨1, 2025⟩, 1, 0, 1⟩,
     ⟨"I3", "PO3", ⟨1, 2025⟩, 1, 0, 1⟩]

/-! ### Merging: `PDFGenerator.merge_pdfs_in_folders` and backup page naming

`create_backup_pages` writes page `i` of `n` to
`f"{invoice_number} - {i}.pdf"`, except the last page (which carries the
total), written to `f"{invoice_number} - 999.pdf"`; `create_front_page`
writes `f"{invoice_number}.pdf"` into the one-pager folder.
`merge_pdfs_in_folders(one_pager, back_up, out)` lists each folder with
`sorted(folder.glob("*.pdf"))` — lexicographic comparison of the file
names by code point — and concatenates the documents, first folder first.
Filenames are `List Char`; `nameLt` is that lexicographic order, and
`sortFiles` the (stable) sort that `sorted` performs on each folder's
files, carried out on (name, page) pairs.  A page is `none` for the front
page and `some i` for backup page-group `i`, so `mergedInvoiceDocument`
is the page sequence of the merged output document. -/

def nameLt : List Char → List Char → Bool
  | [], [] => false
  | [], _ :: _ => true
  | _ :: _, [] => false
  | a :: as, b :: bs =>
      if a.toNat < b.toNat then true
      else if b.toNat < a.toNat then false
      else nameLt as bs

def insertFile {α : Type} (x : List Char × α) : List (List Char × α) → List (List Char × α)
  | [] => [x]
  | y :: ys => if nameLt y.1 x.1 then y :: insertFile x ys else x :: y :: ys

def sortFiles {α : Type} (l : List (List Char × α)) : List (List Char × α) :=
  l.foldr insertFile []

def nameSuffix (count i : Nat) : List Char :=
  " - ".data ++ (if i = count - 1 then "999".data else (toString i).data) ++ ".pdf".data

def backup_page_name (invoice_number : List Char) (count i : Nat) : List Char :=
  invoice_number ++ nameSuffix count i

def frontFolder (invoice_number : List Char) : List (List Char × Option Nat) :=
  [(invoice_number ++ ".pdf".data, none)]

def backupFolder (invoice_number : List Char) (count : Nat) :
    List (List Char × Option Nat) :=
  (List.range count).map (fun i => (backup_page_name invoice_number count i, some i))

def merge_pdfs_in_folders {α : Type} (folder1 folder2 : List (List Char × α)) : List α :=
  (sortFiles folder1).map Prod.snd ++ (sortFiles folder2).map Prod.snd

def mergedInvoiceDocument (invoice_number : List Char) (count : Nat) : List (Option Nat) :=
  merge_pdfs_in_folders (frontFolder invoice_number) (backupFolder invoice_number count)

theorem nameLt_shared_head (p : List Char) :
    ∀ a b, nameLt (p ++ a) (p ++ b) = nameLt a b := by
  induction p with
  | nil => intro a b; rfl
  | cons c cs ih =>
      intro a b
      simp only [List.cons_append, nameLt]
      rw [if_neg (lt_irrefl c.toNat), if_neg (lt_irrefl c.toNat)]
      exact ih a b

theorem insertFile_map_shared {α : Type} (inv : List Char) (x : List Char × α) :
    ∀ l : List (List Char × α),
      insertFile (inv ++ x.1, x.2) (l.map (fun q => (inv ++ q.1, q.2))) =
        (insertFile x l).map (fun q => (inv ++ q.1, q.2)) := by
  intro l
  induction l with
  | nil => rfl
  | cons y ys ih =>
      simp only [List.map_cons, insertFile]
      rw [nameLt_shared_head]
      by_cases h : nameLt y.1 x.1 <;> simp [h, ih]

theorem sortFiles_map_shared {α : Type} (inv : List Char) :
    ∀ l : List (List Char × α),
      sortFiles (l.map (fun q => (inv ++ q.1, q.2))) =
        (sortFiles l).map (fun q => (inv ++ q.1, q.2)) := by
  intro l
  induction l with
  | nil => rfl
  | cons x xs ih =>
      simp only [List.map_cons, sortFiles, List.foldr_cons]
      rw [show (List.foldr insertFile []
          (List.map (fun q => (inv ++ q.1, q.2)) xs) : List (List Char × α)) =
          sortFiles (xs.map (fun q => (inv ++ q.1, q.2))) from rfl, ih]
      exact insertFile_map_shared inv x (sortFiles xs)

theorem mergedDoc_reduction (inv : List Char) (count : Nat) :
    mergedInvoiceDocument inv count =
      none :: (sortFiles ((List.range count).map
        (fun i => (nameSuffix count i, (some i : Option Nat))))).map Prod.snd := by
  rw [mergedInvoiceDocument, merge_pdfs_in_folders]
  have hfront : (sortFiles (frontFolder inv)).map Prod.snd = [(none : Option Nat)] := rfl
  rw [hfront]
  have hfold : backupFolder inv count =
      ((List.range count).map (fun i => (nameSuffix count i, (some i : Option Nat)))).map
        (fun q => (inv ++ q.1, q.2)) := by
    simp only [backupFolder, List.map_map]
    rfl
  rw [hfold, sortFiles_map_shared, List.map_map]
  have hsnd : (Prod.snd ∘ fun q : List Char × Option Nat => (inv ++ q.1, q.2)) =
      (Prod.snd : List Char × Option Nat → Option Nat) := funext (fun q => rfl)
  rw [hsnd]
  rfl

/-- C1 counterexample: with 12 backup pages the non-final pages are named
"... - 0.pdf" through "... - 10.pdf" and the final one "... - 999.pdf",
and lexicographic sorting places "... - 10.pdf" between "... - 1.pdf" and
"... - 2.pdf", so the merged document is not in page-group order. -/
theorem C1_merge_order_counterexample :
    mergedInvoiceDocument "INV001".data 12 =
      [none, some 0, some 1, some 10, some 2, some 3, some 4, some 5,
       some 6, some 7, some 8, some 9, some 11] ∧
    mergedInvoiceDocument "INV001".data 12 ≠ none :: (List.range 12).map some := by
  constructor
  · decide
  · decide

/-- C1 (amended): for every invoice and every number of backup pages up to
11 (so that every non-final page index has a single digit), the merged
document is exactly the front page followed by the backup pages in
page-group order, the total-bearing last page coming last; with 12 or more
backup pages the lexicographic filename sort departs from page-group
order. -/
theorem C1_merge_order_amended (inv : List Char) (count : Nat) (h : count ≤ 11) :
    mergedInvoiceDocument inv count = none :: (List.range count).map some := by
  rw [mergedDoc_reduction]
  interval_cases count <;> decide

/-- Witness for C1 at a concrete invoice number and 3 backup pages. -/
theorem C1_merge_order_amended_witness :
    mergedInvoiceDocument "INV001".data 3 = none :: (List.range 3).map some :=
  C1_merge_order_amended "INV001".data 3 (by decide)

/-- Witness for C4: the font-size rule evaluated at the concrete amount 7. -/
theorem C4_quantity_formatting_witness :
    quantity_fontsize 7 = if 7 < (quantity_final 7).length then 6.4 else 7 :=
  C4_quantity_formatting.2.2.2.2.2 7
